import Mathlib

/-!
Verification of the geometric state-space layer of the rpl repository
(src/rpl/src/types/geometric/spaces.rs).

The source defines a `StateSpace` trait, a `CompoundState` value type and a
`CompoundStateSpace` implementation.  We embed the data model shallowly:

* Rust `f64` values are modelled as exact rationals `ℚ` (the spec's example
  values 0, 3, 4, 1.5, 2.0, 0.5, 7 are all rational, so exact arithmetic is
  faithful for the properties at stake);
* the heterogeneous boxed child spaces (`Vec<Box<StateSpace>>`) are modelled
  by a closed space type with the 1-D real line as the leaf space: leaf
  spaces are out of the repository's scope (the spec only fixes their generic
  contract), so the leaf behaviour is modelled from the spec where needed and
  each such definition says so in its doc comment;
* `&mut` output parameters become explicit state passing: a Rust method
  mutating `result` becomes a Lean function returning the new `result`.
-/

namespace RPL

/-- A geometric state space.  `realLine` models a 1-D real-line leaf space
(out of the repository's scope; behaviour modelled from the spec where used).
`compound` is `CompoundStateSpace` from the source: a `name`, an ordered list
of child spaces (`components: Vec<Box<StateSpace>>`) and a `segment_length`. -/
inductive Space where
  | realLine (segment_length : ℚ)
  | compound (name : String) (components : List Space) (segment_length : ℚ)

/-- A state.  `real` is a 1-D real-line leaf state; `compound` is
`CompoundState` from the source: an ordered list of child states (`values`).
The source's back-reference from a state to its space carries no data used by
any operation, so it is dropped; every operation receives the space
explicitly, as in the Rust trait methods. -/
inductive StateV where
  | real (q : ℚ)
  | compound (values : List StateV)

instance : Inhabited Space := ⟨Space.realLine 1⟩

instance : Inhabited StateV := ⟨StateV.real 0⟩

/-- The `components` field of a compound space (empty for a leaf). -/
def components : Space → List Space
  | Space.realLine _ => []
  | Space.compound _ cs _ => cs

/-- The `values` field of a compound state (empty for a leaf state). -/
def values : StateV → List StateV
  | StateV.real _ => []
  | StateV.compound vs => vs

/-- The stored `segment_length` (`get_segment_length`, source lines 118-120
for the compound space; the leaf case is the same base-contract field). -/
def get_segment_length : Space → ℚ
  | Space.realLine seg => seg
  | Space.compound _ _ seg => seg

/-- `set_segment_length` (source lines 114-116): `self.segment_length = step;`
— an unconditional store, with no validation and no error path.  The leaf
case mirrors the same base-contract field. -/
def set_segment_length : Space → ℚ → Space
  | Space.realLine _, step => Space.realLine step
  | Space.compound nm cs _, step => Space.compound nm cs step

mutual

/-- `distance` (source lines 70-75 for the compound case):
`multizip((&self.components, &a.values, &b.values)).fold(0.0, |acc, ...| acc
+ subspace.distance(a_sub, b_sub))`.  `multizip` truncates to the shortest of
the three lists, which `distanceList` reproduces by stopping at the first
exhausted list.  The leaf case is modelled from the spec: a 1-D real line has
distance `|a - b|`.  Mismatched state kinds are outside the source's typed
interface; they return 0 here and no claim depends on them. -/
def distance : Space → StateV → StateV → ℚ
  | Space.realLine _, StateV.real a, StateV.real b => |a - b|
  | Space.compound _ cs _, StateV.compound as, StateV.compound bs =>
      distanceList cs as bs
  | _, _, _ => 0

/-- The fold of per-child distances over the zipped triple of lists, exactly
the `multizip ... fold` of source lines 71-74 (truncating at the shortest
list, starting from 0). -/
def distanceList : List Space → List StateV → List StateV → ℚ
  | c :: cs, a :: as, b :: bs => distance c a b + distanceList cs as bs
  | _, _, _ => 0

end

/-- `CompoundState::new` (source lines 46-51): the fresh state's `values`
field is `Vec::new()`, i.e. the empty list, regardless of the space passed
in; only the back-reference to the space is stored (dropped here, see
`StateV`). -/
def CompoundState_new (_space : Space) : StateV := StateV.compound []

/-- `interpolate_into` (source lines 83-90): the function body is empty, so
the call performs no mutation at all — in state-passing form it returns
`result` unchanged. -/
def interpolate_into (_space : Space) (_a _b : StateV) (_step : ℚ)
    (result : StateV) : StateV := result

/-- `interpolate` (source lines 77-81): construct a fresh result state via
`CompoundState::new` and delegate to `interpolate_into`. -/
def interpolate (space : Space) (a b : StateV) (step : ℚ) : StateV :=
  interpolate_into space a b step (CompoundState_new space)

mutual

/-- `contains` (source lines 100-106 for the compound case):
`self.components.iter().any(|subspace| subspace.contains(space))` — the query
is delegated to the children only; the space itself is never compared to the
target.  The leaf case is modelled from the spec: a leaf space structurally
contains exactly itself (structural equality, here equality of the stored
segment length). -/
def contains : Space → Space → Bool
  | Space.realLine s1, x =>
      match x with
      | Space.realLine s2 => decide (s1 = s2)
      | Space.compound _ _ _ => false
  | Space.compound _ cs _, x => containsAny cs x

/-- `components.iter().any(|subspace| subspace.contains(space))`, the linear
scan of source lines 103-105, written as explicit list recursion. -/
def containsAny : List Space → Space → Bool
  | [], _ => false
  | c :: cs, x => contains c x || containsAny cs x

end

/-- `covers` (source lines 108-112 for the compound case):
`self.components.iter().any(|subspace| subspace.contains(space))` — note that
the body delegates the CONTAINS query to the children, not the covers query.
The leaf case is modelled from the spec: leaf spaces trivially cover only
themselves. -/
def covers : Space → Space → Bool
  | Space.realLine s1, x =>
      match x with
      | Space.realLine s2 => decide (s1 = s2)
      | Space.compound _ _ _ => false
  | Space.compound _ cs _, x => containsAny cs x

mutual

/-- Modelled from the spec: `CompoundStateSpace::count_segments_between`
(source line 122) has an empty body (`-> isize {}`), i.e. the implementation
is missing from the source; the spec fixes the policy instead: a leaf space
needs `ceil(distance(a, b) / segment_length)` segments, and the compound
policy is the maximum number of segments required by any single child.
Mismatched state kinds return 0, as in `distance`. -/
def count_segments_between : Space → StateV → StateV → ℤ
  | Space.realLine seg, StateV.real a, StateV.real b => ⌈|a - b| / seg⌉
  | Space.compound _ cs _, StateV.compound as, StateV.compound bs =>
      countList cs as bs
  | _, _, _ => 0

/-- The fold of per-child segment counts over the zipped triple of lists,
combining with `max` from 0 (the max-of-children aggregation the spec
prescribes, truncating at the shortest list like the other per-child
folds). -/
def countList : List Space → List StateV → List StateV → ℤ
  | c :: cs, a :: as, b :: bs =>
      max (count_segments_between c a b) (countList cs as bs)
  | _, _, _ => 0

end

/-- The error taxonomy of the spec (section 7).  The source defines no error
type at all; this is the taxonomy the spec's failure-mode claims refer to.
`emptyComposition` is the InvalidConfiguration-class error for constructing a
compound space with zero children. -/
inductive SpaceError where
  | emptyComposition
  | invalidConfiguration
  | dimensionMismatch
deriving DecidableEq

/-- Modelled from the spec: the source contains no constructor for
`CompoundStateSpace` (only the struct declaration, lines 62-66); the spec
requires that constructing a compound space from an empty child list fails
with an InvalidConfiguration error (EmptyCompositionError) rather than
producing a usable space. -/
def CompoundStateSpace_new (name : String) (cs : List Space) (seg : ℚ) :
    Except SpaceError Space :=
  if cs.isEmpty then Except.error SpaceError.emptyComposition
  else Except.ok (Space.compound name cs seg)

/-- At the compound boundary the children are arbitrary boxed `StateSpace`
trait objects.  For a fixed query target, all that a child contributes to
`contains`/`covers` of its parent is its own pair of boolean answers; this
record abstracts a child to exactly those answers, so properties of the
parent's delegation logic can be stated for arbitrary child
implementations. -/
structure ChildBehavior where
  contains : Bool
  covers : Bool

/-- `CompoundStateSpace::covers` over abstract children (source lines
108-112): the body asks each child `subspace.contains(space)`, so for a
fixed target it is the disjunction of the children's CONTAINS answers. -/
def compound_covers_code (children : List ChildBehavior) : Bool :=
  children.any (fun c => c.contains)

/-- Modelled from the spec's words for the covers query, for comparison with
`compound_covers_code`: a compound space covers a target if any child covers
it. -/
def compound_covers_spec (children : List ChildBehavior) : Bool :=
  children.any (fun c => c.covers)

/-- The space of the spec's running example: a compound of two 1-D real-line
children, all segment lengths 1. -/
def S2 : Space := Space.compound "S2" [Space.realLine 1, Space.realLine 1] 1

/-- The example state a = (0, 0). -/
def stA : StateV := StateV.compound [StateV.real 0, StateV.real 0]

/-- The example state b = (3, 4). -/
def stB : StateV := StateV.compound [StateV.real 3, StateV.real 4]

/-- A result state previously populated with (9, 9), for the overwrite
round-trip property. -/
def stPrior : StateV := StateV.compound [StateV.real 9, StateV.real 9]

/-! ## Helper lemmas -/

/-- For index-aligned lists, the truncating per-child fold of `distanceList`
equals the sum over all child indices. -/
theorem distanceList_eq_sum : ∀ (cs : List Space) (as bs : List StateV),
    as.length = cs.length → bs.length = cs.length →
    distanceList cs as bs = ((List.range cs.length).map (fun i =>
      distance (cs.getD i default) (as.getD i default) (bs.getD i default))).sum := by
  intro cs
  induction cs with
  | nil => intro as bs h1 h2; simp [distanceList]
  | cons c cs ih =>
    intro as bs h1 h2
    cases as with
    | nil => simp at h1
    | cons a as =>
      cases bs with
      | nil => simp at h2
      | cons b bs =>
        simp only [List.length_cons, Nat.succ.injEq] at h1 h2
        have hmap : List.map ((fun i => distance ((c :: cs).getD i default)
              ((a :: as).getD i default) ((b :: bs).getD i default)) ∘ Nat.succ)
              (List.range cs.length) =
            List.map (fun i => distance (cs.getD i default) (as.getD i default)
              (bs.getD i default)) (List.range cs.length) := by
          apply List.map_congr_left
          intro i _
          simp [List.getD_cons_succ]
        rw [List.length_cons, List.range_succ_eq_map, List.map_cons, List.sum_cons,
          List.map_map, distanceList, ih as bs h1 h2, hmap]
        simp

/-- Every child's segment count is bounded by the `countList` fold. -/
theorem countList_le : ∀ (cs : List Space) (as bs : List StateV) (i : ℕ),
    i < cs.length → as.length = cs.length → bs.length = cs.length →
    count_segments_between (cs.getD i default) (as.getD i default) (bs.getD i default) ≤
      countList cs as bs := by
  intro cs
  induction cs with
  | nil => intro as bs i hi _ _; simp at hi
  | cons c cs ih =>
    intro as bs i hi h1 h2
    cases as with
    | nil => simp at h1
    | cons a as =>
      cases bs with
      | nil => simp at h2
      | cons b bs =>
        simp only [List.length_cons, Nat.succ.injEq] at h1 h2
        rw [countList]
        cases i with
        | zero => simp only [List.getD_cons_zero]; exact le_max_left _ _
        | succ j =>
          simp only [List.getD_cons_succ]
          exact le_trans (ih as bs j (by simpa using hi) h1 h2) (le_max_right _ _)

/-- For a non-empty child list with non-negative per-child counts, the
`countList` fold is attained at some child index, so it is exactly the
maximum over the children. -/
theorem countList_attained : ∀ (cs : List Space) (as bs : List StateV),
    as.length = cs.length → bs.length = cs.length → cs ≠ [] →
    (∀ i, i < cs.length →
      0 ≤ count_segments_between (cs.getD i default) (as.getD i default) (bs.getD i default)) →
    ∃ i, i < cs.length ∧ countList cs as bs =
      count_segments_between (cs.getD i default) (as.getD i default) (bs.getD i default) := by
  intro cs
  induction cs with
  | nil => intro as bs _ _ hne; exact absurd rfl hne
  | cons c cs ih =>
    intro as bs h1 h2 _ hnn
    cases as with
    | nil => simp at h1
    | cons a as =>
      cases bs with
      | nil => simp at h2
      | cons b bs =>
        simp only [List.length_cons, Nat.succ.injEq] at h1 h2
        rw [countList]
        cases cs with
        | nil =>
          refine ⟨0, by simp, ?_⟩
          have h0 := hnn 0 (by simp)
          simp only [List.getD_cons_zero] at h0 ⊢
          have hz : countList ([] : List Space) as bs = 0 := by simp [countList]
          rw [hz]
          exact max_eq_left h0
        | cons c2 cs2 =>
          obtain ⟨j, hj, hje⟩ := ih as bs h1 h2 (by simp)
            (fun i hi => by
              have := hnn (i + 1) (by simpa using Nat.succ_lt_succ hi)
              simpa only [List.getD_cons_succ] using this)
          rcases le_total (count_segments_between c a b) (countList (c2 :: cs2) as bs)
            with hle | hle
          · exact ⟨j + 1, by simpa using Nat.succ_lt_succ hj, by
              simp only [List.getD_cons_succ]
              rw [max_eq_right hle, hje]⟩
          · exact ⟨0, by simp, by
              simp only [List.getD_cons_zero]
              rw [max_eq_left hle]⟩

mutual

/-- `contains` delegates to children only and its recursion bottoms out at
leaf structural equality, so no space ever contains a compound space. -/
theorem contains_compound_false : ∀ (s : Space) (nm : String) (cs : List Space) (seg : ℚ),
    contains s (Space.compound nm cs seg) = false
  | Space.realLine s1, nm, cs, seg => by simp [contains]
  | Space.compound n l sl, nm, cs, seg => by
      rw [contains]
      exact containsAny_compound_false l nm cs seg

/-- List version of `contains_compound_false`. -/
theorem containsAny_compound_false :
    ∀ (l : List Space) (nm : String) (cs : List Space) (seg : ℚ),
      containsAny l (Space.compound nm cs seg) = false
  | [], _, _, _ => by simp [containsAny]
  | c :: rest, nm, cs, seg => by
      rw [containsAny]
      simp only [Bool.or_eq_false_iff]
      exact ⟨contains_compound_false c nm cs seg,
        containsAny_compound_false rest nm cs seg⟩

end

/-- The linear scan over children is the expected existential. -/
theorem containsAny_iff : ∀ (l : List Space) (x : Space),
    containsAny l x = true ↔ ∃ c ∈ l, contains c x = true := by
  intro l x
  induction l with
  | nil => simp [containsAny]
  | cons c rest ih => simp [containsAny, ih]

/-- The `covers` implementation computes exactly `contains`: the leaf cases
coincide and the compound case of the source delegates the contains query. -/
theorem covers_eq_contains : ∀ (s x : Space), covers s x = contains s x := by
  intro s x
  cases s with
  | realLine seg => rw [covers.eq_def, contains.eq_def]
  | compound nm cs seg => rw [covers.eq_def, contains.eq_def]

/-- The `distanceList` fold depends only on the zipped common prefix of the
three lists: entries past the shortest list are silently ignored. -/
theorem distanceList_trunc : ∀ (cs : List Space) (as bs : List StateV),
    distanceList cs as bs =
      distanceList (cs.take (min cs.length (min as.length bs.length)))
        (as.take (min cs.length (min as.length bs.length)))
        (bs.take (min cs.length (min as.length bs.length))) := by
  intro cs
  induction cs with
  | nil => intro as bs; simp [distanceList]
  | cons c cs ih =>
    intro as bs
    cases as with
    | nil => simp [distanceList]
    | cons a as =>
      cases bs with
      | nil => simp [distanceList]
      | cons b bs =>
        simp only [List.length_cons, Nat.succ_min_succ, List.take_succ_cons]
        rw [distanceList, distanceList, ih as bs]

/-! ## Claim theorems -/

/-- Claim C1: for every CompoundStateSpace and index-aligned compound states,
`distance` is the sum over all child indices of the per-child distances; in
particular, for the two-real-line compound with a = (0,0), b = (3,4),
`distance` is 7. -/
theorem C1_compound_distance :
    (∀ (nm : String) (seg : ℚ) (cs : List Space) (as bs : List StateV),
      as.length = cs.length → bs.length = cs.length →
      distance (Space.compound nm cs seg) (StateV.compound as) (StateV.compound bs) =
        ((List.range cs.length).map (fun i =>
          distance (cs.getD i default) (as.getD i default) (bs.getD i default))).sum) ∧
    distance S2 stA stB = 7 := by
  constructor
  · intro nm seg cs as bs h1 h2
    rw [distance]
    exact distanceList_eq_sum cs as bs h1 h2
  · norm_num [S2, stA, stB, distance, distanceList]

/-- Witness for C1 at a concrete one-child compound space. -/
theorem C1_compound_distance_witness :
    distance (Space.compound "w" [Space.realLine 1] 1) (StateV.compound [StateV.real 0])
        (StateV.compound [StateV.real 5]) =
      ((List.range ([Space.realLine 1] : List Space).length).map (fun i =>
        distance ([Space.realLine 1].getD i default) ([StateV.real 0].getD i default)
          ([StateV.real 5].getD i default))).sum :=
  C1_compound_distance.1 "w" 1 [Space.realLine 1] [StateV.real 0] [StateV.real 5] rfl rfl

/-- Claim C2: for every CompoundStateSpace and index-aligned compound states,
`count_segments_between` is the maximum over the child indices of the
per-child segment counts (it bounds every child's count, and for a non-empty
child list with non-negative child counts it is attained at some child); in
particular, for the two-real-line compound with a = (0,0), b = (3,4) and all
segment lengths 1, the count is 4. -/
theorem C2_count_max :
    (∀ (nm : String) (seg : ℚ) (cs : List Space) (as bs : List StateV),
      as.length = cs.length → bs.length = cs.length →
      (∀ i, i < cs.length →
        count_segments_between (cs.getD i default) (as.getD i default) (bs.getD i default) ≤
          count_segments_between (Space.compound nm cs seg) (StateV.compound as)
            (StateV.compound bs)) ∧
      (cs ≠ [] →
        (∀ i, i < cs.length → 0 ≤ count_segments_between (cs.getD i default)
          (as.getD i default) (bs.getD i default)) →
        ∃ i, i < cs.length ∧
          count_segments_between (Space.compound nm cs seg) (StateV.compound as)
              (StateV.compound bs) =
            count_segments_between (cs.getD i default) (as.getD i default)
              (bs.getD i default))) ∧
    count_segments_between S2 stA stB = 4 := by
  constructor
  · intro nm seg cs as bs h1 h2
    constructor
    · intro i hi
      rw [count_segments_between]
      exact countList_le cs as bs i hi h1 h2
    · intro hne hnn
      rw [count_segments_between]
      exact countList_attained cs as bs h1 h2 hne hnn
  · norm_num [S2, stA, stB, count_segments_between, countList]

/-- Witness for C2 at a concrete one-child compound space. -/
theorem C2_count_max_witness :
    ∃ i, i < ([Space.realLine 1] : List Space).length ∧
      count_segments_between (Space.compound "w" [Space.realLine 1] 1)
          (StateV.compound [StateV.real 0]) (StateV.compound [StateV.real 5]) =
        count_segments_between ([Space.realLine 1].getD i default)
          ([StateV.real 0].getD i default) ([StateV.real 5].getD i default) :=
  (C2_count_max.1 "w" 1 [Space.realLine 1] [StateV.real 0] [StateV.real 5] rfl rfl).2
    (List.cons_ne_nil _ _)
    (fun i hi => by
      have hi0 : i = 0 := Nat.lt_one_iff.mp (by simpa using hi)
      subst hi0
      norm_num [count_segments_between])

/-- Claim C3 (code evaluation at the failing input): `interpolate` builds a
fresh state via `CompoundState::new` and returns it untouched, because
`interpolate_into` has an empty body — so `interpolate(a, b, 0)` is the
empty-valued compound state, which has 0 child values while a has 2, hence
is not a. -/
theorem C3_code_eval :
    interpolate S2 stA stB 0 = StateV.compound [] ∧
    (values (interpolate S2 stA stB 0)).length = 0 ∧ (values stA).length = 2 :=
  ⟨rfl, rfl, rfl⟩

/-- Claim C4 (counterexample): calling `distance` with a compound state of 1
value against one of 2 values on a 2-child space returns the number 3 — the
fold silently truncates to the zipped common prefix and no error of any kind
is raised (the operation's type has no error channel at all). -/
theorem C4_counterexample :
    distance S2 (StateV.compound [StateV.real 0]) stB = 3 := by
  norm_num [S2, stB, distance, distanceList]

/-- Claim C4 (amended): no dimension checking exists — `distance` depends
only on the zipped common prefix of components and values, and
`interpolate_into` never touches (in particular never partially mutates) its
output argument. -/
theorem C4_no_dimension_check :
    (∀ (nm : String) (seg : ℚ) (cs : List Space) (as bs : List StateV),
      distance (Space.compound nm cs seg) (StateV.compound as) (StateV.compound bs) =
        distanceList (cs.take (min cs.length (min as.length bs.length)))
          (as.take (min cs.length (min as.length bs.length)))
          (bs.take (min cs.length (min as.length bs.length)))) ∧
    (∀ (sp : Space) (a b : StateV) (t : ℚ) (r : StateV),
      interpolate_into sp a b t r = r) := by
  constructor
  · intro nm seg cs as bs
    rw [distance]
    exact distanceList_trunc cs as bs
  · intro sp a b t r
    rfl

/-- Claim C5: constructing a CompoundStateSpace from an empty child list
fails with the EmptyCompositionError configuration error, and from a
non-empty child list succeeds with the compound space. -/
theorem C5_empty_composition :
    (∀ (nm : String) (seg : ℚ),
      CompoundStateSpace_new nm [] seg = Except.error SpaceError.emptyComposition) ∧
    (∀ (nm : String) (seg : ℚ) (cs : List Space), cs ≠ [] →
      CompoundStateSpace_new nm cs seg = Except.ok (Space.compound nm cs seg)) := by
  constructor
  · intro nm seg
    rfl
  · intro nm seg cs hne
    rw [CompoundStateSpace_new, if_neg]
    simpa using hne

/-- Witness for C5 at a concrete non-empty child list. -/
theorem C5_empty_composition_witness :
    CompoundStateSpace_new "w" [Space.realLine 1] 1 =
      Except.ok (Space.compound "w" [Space.realLine 1] 1) :=
  C5_empty_composition.2 "w" 1 [Space.realLine 1] (List.cons_ne_nil _ _)

/-- Claim C6 (counterexample): `set_segment_length` called with -1 on the
example space (stored segment length 1) stores -1: the stored value changes,
becomes non-positive, and no error is raised (the operation's type has no
error channel). -/
theorem C6_counterexample :
    get_segment_length S2 = 1 ∧
    get_segment_length (set_segment_length S2 (-1)) = -1 ∧
    ¬ 0 < get_segment_length (set_segment_length S2 (-1)) :=
  ⟨rfl, rfl, by norm_num [S2, set_segment_length, get_segment_length]⟩

/-- Claim C6 (amended): `set_segment_length` stores the given step
unconditionally — any value, including zero and negative ones, overwrites
the stored segment length and no validation or error occurs. -/
theorem C6_setter_unconditional :
    ∀ (nm : String) (cs : List Space) (seg step : ℚ),
      set_segment_length (Space.compound nm cs seg) step = Space.compound nm cs step ∧
      get_segment_length (set_segment_length (Space.compound nm cs seg) step) = step :=
  fun _ _ _ _ => ⟨rfl, rfl⟩

/-- Claim C7 (code evaluation at the failing input): `interpolate_into` with
from = (0,0), to = (3,4), t = 1/2 and a result previously populated with
(9, 9) leaves the result exactly as it was — the prior contents leak through
untouched instead of being overwritten with (1.5, 2.0). -/
theorem C7_code_eval :
    interpolate_into S2 stA stB (1/2) stPrior = stPrior ∧
    values (interpolate_into S2 stA stB (1/2) stPrior) =
      [StateV.real 9, StateV.real 9] :=
  ⟨rfl, rfl⟩

/-- Claim C8 (counterexample): the example compound space does not contain
itself — `contains` consults only the children. -/
theorem C8_counterexample : contains S2 S2 = false := rfl

/-- Claim C8 (amended): a leaf space contains itself, but `contains` on a
CompoundStateSpace delegates to the children only and bottoms out at leaf
equality, so a compound space contains no compound space (in particular not
itself); on a compound space, `contains` holds exactly when some child
recursively contains the target. -/
theorem C8_contains_children_only :
    (∀ seg : ℚ, contains (Space.realLine seg) (Space.realLine seg) = true) ∧
    (∀ (nm : String) (cs : List Space) (seg : ℚ) (nm2 : String) (cs2 : List Space)
      (seg2 : ℚ),
      contains (Space.compound nm cs seg) (Space.compound nm2 cs2 seg2) = false) ∧
    (∀ (nm : String) (cs : List Space) (seg : ℚ) (x : Space),
      contains (Space.compound nm cs seg) x = true ↔ ∃ c ∈ cs, contains c x = true) := by
  refine ⟨?_, ?_, ?_⟩
  · intro seg
    simp [contains]
  · intro nm cs seg nm2 cs2 seg2
    exact contains_compound_false _ nm2 cs2 seg2
  · intro nm cs seg x
    rw [contains]
    exact containsAny_iff cs x

/-- Claim C9 (counterexample): a compound space whose single child answers
covers = true but contains = false is, per the claim, covered; the code's
delegation (which asks the children for contains, source lines 108-112)
returns false. -/
theorem C9_counterexample :
    compound_covers_spec [ChildBehavior.mk false true] = true ∧
    compound_covers_code [ChildBehavior.mk false true] = false :=
  ⟨rfl, rfl⟩

/-- Claim C9 (amended): the compound `covers` delegates the contains query to
the children, so `covers` computes exactly `contains` and is not a distinct
predicate. -/
theorem C9_covers_conflated :
    (∀ (s x : Space), covers s x = contains s x) ∧
    (∀ children : List ChildBehavior,
      compound_covers_code children = children.any (fun c => c.contains)) :=
  ⟨covers_eq_contains, fun _ => rfl⟩

/-- Claim C10 (code evaluation at the failing input): `CompoundState::new`
for the 2-child example space returns a state with an empty values list —
zero entries instead of one per child — so the invariant
len(values) = len(components) fails on every freshly constructed state. -/
theorem C10_code_eval :
    values (CompoundState_new S2) = [] ∧ (components S2).length = 2 ∧
    (values (CompoundState_new S2)).length ≠ (components S2).length :=
  ⟨rfl, rfl, by decide⟩

end RPL
